import Mathlib

/-!
Verification of the siltex TEX decoder (src/main.rs).

The Rust program is shallowly embedded. A file buffer is a `List Nat`
(each entry one byte value, < 256 in every real execution), machine
integers are `Nat`/`Int` with explicit two's-complement conversions, and
the fallible decoding pipeline of `main` (everything after command-line
handling and file reading) is the function `decode`.  `decode` returns
either a classified error -- including the panics raised by slice bounds
checks and by the `assert_eq!` calls -- or the final state of the file
buffer together with the produced RGBA buffer.  Arithmetic on `usize`
follows release-mode (wrapping) semantics, written as explicit `% 2 ^ 64`;
none of the theorems below depends on an actual wrap.
-/

namespace Siltex

/-- `const MAGIC: [u8; 4] = *b"TEX\n"` (main.rs line 24). -/
def MAGIC : List Nat := [0x54, 0x45, 0x58, 0x0A]

/-- Contents of the Rust slice `l[a..b]`; the bounds checks that indexing
performs are modelled at the use sites. -/
def listSlice (l : List Nat) (a b : Nat) : List Nat := (l.drop a).take (b - a)

/-- Reading of a `w`-bit value as a two's-complement signed integer. -/
def toSigned (w : Nat) (n : Nat) : Int :=
  if n < 2 ^ (w - 1) then (n : Int) else (n : Int) - 2 ^ w

/-- `i16::from_be_bytes` applied to a 2-byte slice. -/
def i16_from_be_bytes (l : List Nat) : Int :=
  toSigned 16 (l.getD 0 0 * 2 ^ 8 + l.getD 1 0)

/-- `i32::from_be_bytes` applied to a 4-byte slice. -/
def i32_from_be_bytes (l : List Nat) : Int :=
  toSigned 32 (l.getD 0 0 * 2 ^ 24 + l.getD 1 0 * 2 ^ 16 + l.getD 2 0 * 2 ^ 8 + l.getD 3 0)

/-- Rust `as usize` on a signed value: two's-complement reduction into 64 bits. -/
def usizeOfInt (x : Int) : Nat := (x % (2 ^ 64 : Int)).toNat

/-- `struct TexHeader` (main.rs lines 27-40).  The source field
`opaque_bitmap` is spelled `opaqBitmap` here. -/
structure TexHeader where
  magic : List Nat
  version : Nat
  format : Nat
  mipmaps : Nat
  opaqBitmap : Nat
  width : Int
  height : Int
  scale : Int
  pixels_offset : Int
  pixels_size : Int
  bitmap_offset : Int
  bitmap_size : Int

/-- The `TexHeader` construction in `main` (main.rs lines 88-101); the
surrounding code guarantees `32 ≤ tex.length` before it runs. -/
def parseHeader (tex : List Nat) : TexHeader where
  magic := listSlice tex 0 4
  version := tex.getD 4 0
  format := tex.getD 5 0
  mipmaps := tex.getD 6 0
  opaqBitmap := tex.getD 7 0
  width := i16_from_be_bytes (listSlice tex 8 10)
  height := i16_from_be_bytes (listSlice tex 10 12)
  scale := i32_from_be_bytes (listSlice tex 12 16)
  pixels_offset := i32_from_be_bytes (listSlice tex 16 20)
  pixels_size := i32_from_be_bytes (listSlice tex 20 24)
  bitmap_offset := i32_from_be_bytes (listSlice tex 24 28)
  bitmap_size := i32_from_be_bytes (listSlice tex 28 32)

/-- `enum TexFormat` (main.rs lines 44-48). -/
inductive TexFormat where
  | bgra8888
  | bgra5551
  | pvrtc2Rgba
deriving DecidableEq

/-- `TexFormat::from_value` (main.rs lines 51-58). -/
def TexFormat.from_value (value : Nat) : Option TexFormat :=
  match value with
  | 0x08 => some TexFormat.bgra8888
  | 0x0A => some TexFormat.bgra5551
  | 0x84 => some TexFormat.pvrtc2Rgba
  | _ => none

/-- The ways the decoding pipeline of `main` terminates without output:
the classified `eprintln` + failure-exit paths, plus the two kinds of
panic it can raise (a failed slice bounds check, a failed `assert_eq!`). -/
inductive TexError where
  | truncated
  | badMagic
  | unsupportedVersion (v : Nat)
  | unsupportedFormat (b : Nat)
  | unimplemented (f : TexFormat)
  | panicSlice
  | panicAssert
deriving DecidableEq

/-- The 5-to-8-bit channel expansion `c * 0xFF / 0x1F` used by the
Bgra5551 arm (main.rs lines 159-161). -/
def expand5 (c : Nat) : Nat := c * 0xFF / 0x1F

/-- One iteration body of the Bgra5551 loop (main.rs lines 158-164):
`v = u16::from_le_bytes([b0, b1]) as u32`, the packed `rgba` word, and
`rgba.to_le_bytes()`.  The `% 2 ^ 32` is the `u32` width (never reached
for byte-valued inputs). -/
def decodePixel5551 (b0 b1 : Nat) : List Nat :=
  let v := b0 + 2 ^ 8 * b1
  let rgba := (expand5 ((v >>> 10) &&& 0x1F)
      ||| expand5 ((v >>> 5) &&& 0x1F) <<< 8
      ||| expand5 (v &&& 0x1F) <<< 16
      ||| (v >>> 15) * 0xFF000000) % 2 ^ 32
  [rgba % 2 ^ 8, rgba >>> 8 % 2 ^ 8, rgba >>> 16 % 2 ^ 8, rgba >>> 24 % 2 ^ 8]

/-- The in-place Bgra8888 reorder loop (main.rs lines 127-130): every
aligned 4-byte group `[b, g, r, a]` becomes `[r, g, b, a]`.  The
surrounding `assert_eq!` makes the length a multiple of 4. -/
def bgra8888Step : List Nat → List Nat
  | b :: g :: r :: a :: rest => r :: g :: b :: a :: bgra8888Step rest
  | rest => rest

/-- A 4-byte write `out.write(...)` into the output buffer at index `idx`
(main.rs line 164); cells are `Option Nat`, `none` meaning uninitialized
(`MaybeUninit`). -/
def writeAt (buf : List (Option Nat)) (idx : Nat) (vals : List Nat) : List (Option Nat) :=
  buf.take idx ++ vals.map some ++ buf.drop (idx + vals.length)

/-- The Bgra5551 fill loop (main.rs lines 147-165): `i` walks the pixel
region two bytes at a time and the four decoded bytes land at output
offset `i << 1`.  `off` is that output offset (starts at 0, steps by 4).
The one-byte-left case cannot be reached under the `assert_eq!` that the
region length is `width*height*2`. -/
def fill5551 (pixels : List Nat) (off : Nat) (buf : List (Option Nat)) : List (Option Nat) :=
  match pixels with
  | b0 :: b1 :: rest => fill5551 rest (off + 4) (writeAt buf off (decodePixel5551 b0 b1))
  | _ => buf

/-- Write-count instrumentation of one 4-byte write of the Bgra5551 loop:
the counter of every cell in `[off, off + len)` goes up by one. -/
def bumpRange (cnt : List Nat) (off len : Nat) : List Nat :=
  cnt.take off ++ ((cnt.drop off).take len).map (fun c => c + 1) ++ cnt.drop (off + len)

/-- Write-count instrumentation of `fill5551`: identical iteration
structure, recording how many times each output byte is written. -/
def fill5551Count (pixels : List Nat) (off : Nat) (cnt : List Nat) : List Nat :=
  match pixels with
  | _ :: _ :: rest => fill5551Count rest (off + 4) (bumpRange cnt off 4)
  | _ => cnt

/-- In-place mutation of the sub-slice at `[idx, idx + vals.length)` of a
buffer, as performed through the `pixels` borrow in the Bgra8888 arm. -/
def writeRange (l : List Nat) (idx : Nat) (vals : List Nat) : List Nat :=
  l.take idx ++ vals ++ l.drop (idx + vals.length)

/-- The decoding pipeline of `main` (main.rs lines 83-183): length check,
header parse, magic check, version check, format lookup, the bounds-checked
pixel-region slice, and the per-format decode.  On success it returns the
final state of the file buffer and the RGBA buffer handed to the PNG
encoder. -/
def decode (tex : List Nat) : Except TexError (List Nat × List Nat) :=
  if tex.length < 32 then Except.error TexError.truncated
  else
    let header := parseHeader tex
    if header.magic ≠ MAGIC then Except.error TexError.badMagic
    else if header.version ≠ 2 then Except.error (TexError.unsupportedVersion header.version)
    else
      match TexFormat.from_value header.format with
      | none => Except.error (TexError.unsupportedFormat header.format)
      | some format =>
        let start := usizeOfInt header.pixels_offset
        let stop := (start + usizeOfInt header.pixels_size) % 2 ^ 64
        if start ≤ stop ∧ stop ≤ tex.length then
          let pixels := listSlice tex start stop
          match format with
          | TexFormat.bgra8888 =>
            if usizeOfInt header.width * usizeOfInt header.height * 4 % 2 ^ 64 = pixels.length then
              let newPixels := bgra8888Step pixels
              Except.ok (writeRange tex start newPixels, newPixels)
            else Except.error TexError.panicAssert
          | TexFormat.bgra5551 =>
            if usizeOfInt header.width * usizeOfInt header.height * 2 % 2 ^ 64 = pixels.length then
              let filled := fill5551 pixels 0
                (List.replicate (usizeOfInt header.width * usizeOfInt header.height * 4 % 2 ^ 64)
                  none)
              Except.ok (tex, filled.map (fun o => o.getD 0))
            else Except.error TexError.panicAssert
          | TexFormat.pvrtc2Rgba => Except.error (TexError.unimplemented TexFormat.pvrtc2Rgba)
        else Except.error TexError.panicSlice

/-- A 1x1 Bgra5551 test file: valid header (format 0x0A, width 1,
height 1, pixel region at offset 32 of size 2) followed by the pixel
bytes 0xFF 0xFF. -/
def tex5551Example : List Nat :=
  [0x54, 0x45, 0x58, 0x0A, 2, 0x0A, 0, 0,
   0, 1, 0, 1, 0, 0, 0, 0,
   0, 0, 0, 32, 0, 0, 0, 2,
   0, 0, 0, 0, 0, 0, 0, 0,
   0xFF, 0xFF]

/-- A 1x1 Bgra8888 test file: valid header (format 0x08, width 1,
height 1, pixel region at offset 32 of size 4) followed by the pixel
bytes 0x10 0x20 0x30 0x40. -/
def tex8888Example : List Nat :=
  [0x54, 0x45, 0x58, 0x0A, 2, 0x08, 0, 0,
   0, 1, 0, 1, 0, 0, 0, 0,
   0, 0, 0, 32, 0, 0, 0, 4,
   0, 0, 0, 0, 0, 0, 0, 0,
   0x10, 0x20, 0x30, 0x40]

/-- A file whose header is valid up to the format byte 0x84 (Pvrtc2Rgba)
but whose declared pixel region (offset 0, size 64) overruns the 32-byte
file, so the slice bounds check panics before the format dispatch. -/
def texPvrtcOverrun : List Nat :=
  [0x54, 0x45, 0x58, 0x0A, 2, 0x84, 0, 0,
   0, 1, 0, 1, 0, 0, 0, 0,
   0, 0, 0, 0, 0, 0, 0, 64,
   0, 0, 0, 0, 0, 0, 0, 0]

/-- The byte list produced by the whole Bgra5551 loop, one 2-byte pixel at
a time (proved below to be what `fill5551` leaves in the output buffer). -/
def bgra5551Flat : List Nat → List Nat
  | b0 :: b1 :: rest => decodePixel5551 b0 b1 ++ bgra5551Flat rest
  | _ => []

/-- A file whose header is valid except that its version byte is 7. -/
def texBadVersion : List Nat :=
  [0x54, 0x45, 0x58, 0x0A, 7, 0x08, 0, 0,
   0, 1, 0, 1, 0, 0, 0, 0,
   0, 0, 0, 32, 0, 0, 0, 4,
   0, 0, 0, 0, 0, 0, 0, 0]

/-- A file with good magic and version but unrecognized format byte 3. -/
def texBadFormat : List Nat :=
  [0x54, 0x45, 0x58, 0x0A, 2, 3, 0, 0,
   0, 1, 0, 1, 0, 0, 0, 0,
   0, 0, 0, 32, 0, 0, 0, 4,
   0, 0, 0, 0, 0, 0, 0, 0]

/-- A file with good magic and version, format byte 0x84 (Pvrtc2Rgba) and
an in-range (empty) pixel region. -/
def texPvrtc : List Nat :=
  [0x54, 0x45, 0x58, 0x0A, 2, 0x84, 0, 0,
   0, 1, 0, 1, 0, 0, 0, 0,
   0, 0, 0, 32, 0, 0, 0, 0,
   0, 0, 0, 0, 0, 0, 0, 0]

lemma lor_shiftLeft_eq_add (a b k : Nat) (ha : a < 2 ^ k) :
    a ||| b <<< k = a + b * 2 ^ k := by
  apply Nat.eq_of_testBit_eq
  intro i
  rw [Nat.testBit_lor, Nat.testBit_shiftLeft]
  rcases Nat.lt_or_ge i k with hik | hik
  · have hd : (decide (k ≤ i)) = false := decide_eq_false (Nat.not_le.mpr hik)
    rw [hd, Bool.false_and, Bool.or_false, Nat.testBit_to_div_mod, Nat.testBit_to_div_mod]
    have h2 : 2 ^ k = 2 ^ (k - i) * 2 ^ i := by rw [← pow_add]; congr 1; omega
    have h3 : (a + b * 2 ^ k) / 2 ^ i = a / 2 ^ i + b * 2 ^ (k - i) := by
      rw [h2, ← mul_assoc, Nat.add_mul_div_right _ _ (Nat.two_pow_pos i)]
    have h4 : b * 2 ^ (k - i) = b * 2 ^ (k - i - 1) * 2 := by
      rw [mul_assoc]
      congr 1
      rw [← pow_succ]
      congr 1
      omega
    have h5 : (a / 2 ^ i + b * 2 ^ (k - i)) % 2 = a / 2 ^ i % 2 := by
      rw [h4, Nat.add_mul_mod_self_right]
    rw [h3, h5]
  · have hd : (decide (k ≤ i)) = true := decide_eq_true hik
    have ha' : a.testBit i = false :=
      Nat.testBit_lt_two_pow (lt_of_lt_of_le ha (Nat.pow_le_pow_right (by norm_num) hik))
    rw [hd, Bool.true_and, ha', Bool.false_or, Nat.testBit_to_div_mod, Nat.testBit_to_div_mod]
    have h2 : 2 ^ i = 2 ^ k * 2 ^ (i - k) := by rw [← pow_add]; congr 1; omega
    have h3 : (a + b * 2 ^ k) / 2 ^ i = b / 2 ^ (i - k) := by
      rw [h2, ← Nat.div_div_eq_div_mul, Nat.add_mul_div_right _ _ (Nat.two_pow_pos k),
        Nat.div_eq_of_lt ha, Nat.zero_add]
    rw [h3]

lemma expand5_le (c : Nat) (hc : c ≤ 31) : expand5 c ≤ 255 := by
  unfold expand5
  calc c * 0xFF / 0x1F ≤ 31 * 0xFF / 0x1F :=
        Nat.div_le_div_right (Nat.mul_le_mul_right _ hc)
    _ = 255 := by norm_num

lemma and31_le (x : Nat) : x &&& 0x1F ≤ 31 := Nat.and_le_right

/-- The packed `rgba` word of the Bgra5551 arm, written as a sum of
disjoint byte fields. -/
lemma rgba_word_eq (r g b a1 : Nat) (hr : r ≤ 255) (hg : g ≤ 255) (hb : b ≤ 255)
    (ha : a1 ≤ 1) :
    (r ||| g <<< 8 ||| b <<< 16 ||| a1 * 0xFF000000) % 2 ^ 32 =
      r + g * 2 ^ 8 + b * 2 ^ 16 + a1 * 0xFF * 2 ^ 24 := by
  have e1 : r ||| g <<< 8 = r + g * 2 ^ 8 :=
    lor_shiftLeft_eq_add r g 8 (by omega)
  have e2 : r + g * 2 ^ 8 ||| b <<< 16 = r + g * 2 ^ 8 + b * 2 ^ 16 :=
    lor_shiftLeft_eq_add _ b 16 (by omega)
  have e3 : a1 * 0xFF000000 = (a1 * 0xFF) <<< 24 := by
    rw [Nat.shiftLeft_eq]
    ring_nf
  have e4 : r + g * 2 ^ 8 + b * 2 ^ 16 ||| (a1 * 0xFF) <<< 24 =
      r + g * 2 ^ 8 + b * 2 ^ 16 + a1 * 0xFF * 2 ^ 24 :=
    lor_shiftLeft_eq_add _ (a1 * 0xFF) 24 (by omega)
  rw [e1, e2, e3, e4, Nat.mod_eq_of_lt (by omega)]

/-- The byte list produced by one Bgra5551 loop body, phrased directly on
the 16-bit value `v`. -/
lemma decodeWord5551_list_eq (v : Nat) (hv : v < 2 ^ 16) :
    [((expand5 (v >>> 10 &&& 0x1F) ||| expand5 (v >>> 5 &&& 0x1F) <<< 8
        ||| expand5 (v &&& 0x1F) <<< 16 ||| (v >>> 15) * 0xFF000000) % 2 ^ 32) % 2 ^ 8,
     ((expand5 (v >>> 10 &&& 0x1F) ||| expand5 (v >>> 5 &&& 0x1F) <<< 8
        ||| expand5 (v &&& 0x1F) <<< 16 ||| (v >>> 15) * 0xFF000000) % 2 ^ 32) >>> 8 % 2 ^ 8,
     ((expand5 (v >>> 10 &&& 0x1F) ||| expand5 (v >>> 5 &&& 0x1F) <<< 8
        ||| expand5 (v &&& 0x1F) <<< 16 ||| (v >>> 15) * 0xFF000000) % 2 ^ 32) >>> 16 % 2 ^ 8,
     ((expand5 (v >>> 10 &&& 0x1F) ||| expand5 (v >>> 5 &&& 0x1F) <<< 8
        ||| expand5 (v &&& 0x1F) <<< 16 ||| (v >>> 15) * 0xFF000000) % 2 ^ 32) >>> 24 % 2 ^ 8] =
      [(v >>> 10 &&& 0x1F) * 255 / 31, (v >>> 5 &&& 0x1F) * 255 / 31,
       (v &&& 0x1F) * 255 / 31, (v >>> 15) * 0xFF] := by
  have hr := expand5_le _ (and31_le (v >>> 10))
  have hg := expand5_le _ (and31_le (v >>> 5))
  have hb := expand5_le _ (and31_le v)
  have ha1 : v >>> 15 ≤ 1 := by
    have h15 : v >>> 15 = v / 2 ^ 15 := Nat.shiftRight_eq_div_pow v 15
    omega
  rw [rgba_word_eq _ _ _ _ hr hg hb ha1]
  have e1 : expand5 (v >>> 10 &&& 0x1F) = (v >>> 10 &&& 0x1F) * 255 / 31 := rfl
  have e2 : expand5 (v >>> 5 &&& 0x1F) = (v >>> 5 &&& 0x1F) * 255 / 31 := rfl
  have e3 : expand5 (v &&& 0x1F) = (v &&& 0x1F) * 255 / 31 := rfl
  have h8 : ∀ x : Nat, x >>> 8 = x / 2 ^ 8 := fun x => Nat.shiftRight_eq_div_pow x 8
  have h16 : ∀ x : Nat, x >>> 16 = x / 2 ^ 16 := fun x => Nat.shiftRight_eq_div_pow x 16
  have h24 : ∀ x : Nat, x >>> 24 = x / 2 ^ 24 := fun x => Nat.shiftRight_eq_div_pow x 24
  rw [h8, h16, h24]
  simp only [List.cons.injEq, and_true]
  omega

/-- One Bgra5551 loop body emits exactly the four claimed channel bytes
`[R, G, B, A]` for the little-endian 16-bit value it reads. -/
lemma decodePixel5551_eq (b0 b1 : Nat) (h0 : b0 < 256) (h1 : b1 < 256) :
    decodePixel5551 b0 b1 =
      [((b0 + 2 ^ 8 * b1) >>> 10 &&& 0x1F) * 255 / 31,
       ((b0 + 2 ^ 8 * b1) >>> 5 &&& 0x1F) * 255 / 31,
       ((b0 + 2 ^ 8 * b1) &&& 0x1F) * 255 / 31,
       ((b0 + 2 ^ 8 * b1) >>> 15) * 0xFF] :=
  decodeWord5551_list_eq (b0 + 2 ^ 8 * b1) (by omega)

lemma listSlice_length (l : List Nat) (a b : Nat) (hab : a ≤ b) (hb : b ≤ l.length) :
    (listSlice l a b).length = b - a := by
  unfold listSlice
  rw [List.length_take, List.length_drop]
  omega

lemma getD_drop (l : List Nat) (a i d : Nat) : (l.drop a).getD i d = l.getD (a + i) d := by
  rw [List.getD_eq_getElem?_getD, List.getD_eq_getElem?_getD, List.getElem?_drop]

lemma listSlice_getD (l : List Nat) (a b i d : Nat) (h : i < b - a) :
    (listSlice l a b).getD i d = l.getD (a + i) d := by
  unfold listSlice
  rw [List.getD_eq_getElem?_getD, List.getD_eq_getElem?_getD, List.getElem?_take_of_lt h,
    List.getElem?_drop]

lemma getD_lt_256 (l : List Nat) (hl : ∀ x ∈ l, x < 256) (i : Nat) : l.getD i 0 < 256 := by
  rw [List.getD_eq_getElem?_getD]
  cases h : l[i]? with
  | none => simp
  | some x =>
    simpa using hl x (List.getElem?_mem h)

lemma listSlice_zero_four (l : List Nat) (h : 4 ≤ l.length) :
    listSlice l 0 4 = [l.getD 0 0, l.getD 1 0, l.getD 2 0, l.getD 3 0] := by
  rcases l with _ | ⟨a, _ | ⟨b, _ | ⟨c, _ | ⟨d, rest⟩⟩⟩⟩ <;> first | rfl | simp at h

lemma bgra8888Step_length (l : List Nat) : (bgra8888Step l).length = l.length := by
  induction l using bgra8888Step.induct with
  | case1 b g r a rest ih => simp [bgra8888Step, ih]
  | case2 rest h => simp [bgra8888Step]

lemma bgra8888Step_step (l : List Nat) : bgra8888Step (bgra8888Step l) = l := by
  induction l using bgra8888Step.induct with
  | case1 b g r a rest ih => simp [bgra8888Step, ih]
  | case2 rest h =>
    rcases rest with _ | ⟨a, _ | ⟨b, _ | ⟨c, _ | ⟨d, t⟩⟩⟩⟩ <;>
      first | rfl | (exact absurd rfl (h _ _ _ _ _))

lemma exists_two_cons (l : List Nat) (h : 2 ≤ l.length) :
    ∃ a b t, l = a :: b :: t := by
  rcases l with _ | ⟨a, _ | ⟨b, t⟩⟩
  · simp only [List.length_nil] at h
    omega
  · simp only [List.length_cons, List.length_nil] at h
    omega
  · exact ⟨a, b, t, rfl⟩

lemma exists_four_cons (l : List Nat) (h : 4 ≤ l.length) :
    ∃ a b c d t, l = a :: b :: c :: d :: t := by
  obtain ⟨a, b, t1, rfl⟩ := exists_two_cons l (by omega)
  obtain ⟨c, d, t, rfl⟩ := exists_two_cons t1
    (by simp only [List.length_cons] at h ⊢; omega)
  exact ⟨a, b, c, d, t, rfl⟩

lemma bgra8888Step_drop (p : Nat) : ∀ l : List Nat, 4 * p ≤ l.length →
    (bgra8888Step l).drop (4 * p) = bgra8888Step (l.drop (4 * p)) := by
  induction p with
  | zero => intro l _; simp
  | succ q ih =>
    intro l hl
    obtain ⟨a, b, c, d, t, rfl⟩ := exists_four_cons l (by omega)
    have ht : 4 * q ≤ t.length := by
      simp only [List.length_cons] at hl
      omega
    have he : 4 * (q + 1) = 4 + 4 * q := by ring
    rw [he]
    have hstep : bgra8888Step (a :: b :: c :: d :: t) = c :: b :: a :: d :: bgra8888Step t := rfl
    rw [hstep]
    have hd1 : (c :: b :: a :: d :: bgra8888Step t).drop (4 + 4 * q) =
        (bgra8888Step t).drop (4 * q) := by
      rw [← List.drop_drop]
      rfl
    have hd2 : (a :: b :: c :: d :: t).drop (4 + 4 * q) = t.drop (4 * q) := by
      rw [← List.drop_drop]
      rfl
    rw [hd1, hd2, ih t ht]

lemma bgra8888Step_take_four (m : List Nat) (h : 4 ≤ m.length) :
    (bgra8888Step m).take 4 = [m.getD 2 0, m.getD 1 0, m.getD 0 0, m.getD 3 0] := by
  obtain ⟨a, b, c, d, t, rfl⟩ := exists_four_cons m h
  rfl

lemma bgra8888Step_segment (l : List Nat) (p : Nat) (h : 4 * p + 4 ≤ l.length) :
    listSlice (bgra8888Step l) (4 * p) (4 * p + 4) =
      [l.getD (4 * p + 2) 0, l.getD (4 * p + 1) 0, l.getD (4 * p) 0, l.getD (4 * p + 3) 0] := by
  have hlen : 4 * p ≤ l.length := by omega
  have hs : 4 * p + 4 - 4 * p = 4 := by omega
  unfold listSlice
  rw [hs, bgra8888Step_drop p l hlen,
    bgra8888Step_take_four (l.drop (4 * p)) (by rw [List.length_drop]; omega)]
  rw [getD_drop, getD_drop, getD_drop, getD_drop]
  norm_num

lemma decodePixel5551_length (b0 b1 : Nat) : (decodePixel5551 b0 b1).length = 4 := rfl

lemma bgra5551Flat_length (l : List Nat) (h : l.length % 2 = 0) :
    (bgra5551Flat l).length = 2 * l.length := by
  induction l using bgra5551Flat.induct with
  | case1 b0 b1 rest ih =>
    have hev : rest.length % 2 = 0 := by
      simp only [List.length_cons] at h
      omega
    show (decodePixel5551 b0 b1 ++ bgra5551Flat rest).length = _
    rw [List.length_append, decodePixel5551_length, ih hev]
    simp only [List.length_cons]
    omega
  | case2 rest h2 =>
    rcases rest with _ | ⟨a, _ | ⟨b, t⟩⟩
    · rfl
    · simp at h
    · exact absurd rfl (h2 a b t)

lemma bgra5551Flat_drop (p : Nat) : ∀ l : List Nat, 2 * p ≤ l.length → l.length % 2 = 0 →
    (bgra5551Flat l).drop (4 * p) = bgra5551Flat (l.drop (2 * p)) := by
  induction p with
  | zero => intro l _ _; simp
  | succ q ih =>
    intro l hl hev
    obtain ⟨a, b, t, rfl⟩ := exists_two_cons l (by omega)
    have ht : 2 * q ≤ t.length ∧ t.length % 2 = 0 := by
      simp only [List.length_cons] at hl hev
      omega
    have hflat : bgra5551Flat (a :: b :: t) = decodePixel5551 a b ++ bgra5551Flat t := rfl
    have he4 : 4 * (q + 1) = 4 + 4 * q := by ring
    have he2 : 2 * (q + 1) = 2 + 2 * q := by ring
    rw [hflat, he4, he2]
    have hd1 : (decodePixel5551 a b ++ bgra5551Flat t).drop (4 + 4 * q) =
        (bgra5551Flat t).drop (4 * q) := by
      rw [← List.drop_drop, List.drop_left' (decodePixel5551_length a b)]
    have hd2 : (a :: b :: t).drop (2 + 2 * q) = t.drop (2 * q) := by
      rw [← List.drop_drop]
      rfl
    rw [hd1, hd2, ih t ht.1 ht.2]

lemma bgra5551Flat_take_four (m : List Nat) (h : 2 ≤ m.length) :
    (bgra5551Flat m).take 4 = decodePixel5551 (m.getD 0 0) (m.getD 1 0) := by
  obtain ⟨a, b, t, rfl⟩ := exists_two_cons m h
  show (decodePixel5551 a b ++ bgra5551Flat t).take 4 = decodePixel5551 a b
  exact List.take_left' (decodePixel5551_length a b)

lemma bgra5551Flat_segment (l : List Nat) (p : Nat) (h : 2 * p + 2 ≤ l.length)
    (hev : l.length % 2 = 0) :
    listSlice (bgra5551Flat l) (4 * p) (4 * p + 4) =
      decodePixel5551 (l.getD (2 * p) 0) (l.getD (2 * p + 1) 0) := by
  have hs : 4 * p + 4 - 4 * p = 4 := by omega
  unfold listSlice
  rw [hs, bgra5551Flat_drop p l (by omega) hev,
    bgra5551Flat_take_four (l.drop (2 * p)) (by rw [List.length_drop]; omega)]
  rw [getD_drop, getD_drop]
  norm_num

lemma fill5551_eq (pixels : List Nat) : ∀ (off : Nat) (pre : List (Option Nat)),
    pre.length = off → pixels.length % 2 = 0 →
    fill5551 pixels off (pre ++ List.replicate (2 * pixels.length) none) =
      pre ++ (bgra5551Flat pixels).map some := by
  induction pixels using bgra5551Flat.induct with
  | case1 b0 b1 rest ih =>
    intro off pre hpre hev
    have hev' : rest.length % 2 = 0 := by
      simp only [List.length_cons] at hev
      omega
    have hrep : List.replicate (2 * (b0 :: b1 :: rest).length) (none : Option Nat) =
        List.replicate 4 none ++ List.replicate (2 * rest.length) none := by
      rw [← List.replicate_add]
      congr 1
      simp only [List.length_cons]
      omega
    rw [hrep]
    have hfill : fill5551 (b0 :: b1 :: rest) off
        (pre ++ (List.replicate 4 none ++ List.replicate (2 * rest.length) none)) =
        fill5551 rest (off + 4)
          (writeAt (pre ++ (List.replicate 4 none ++ List.replicate (2 * rest.length) none)) off
            (decodePixel5551 b0 b1)) := rfl
    rw [hfill]
    have hw : writeAt (pre ++ (List.replicate 4 none ++ List.replicate (2 * rest.length) none))
        off (decodePixel5551 b0 b1) =
        (pre ++ (decodePixel5551 b0 b1).map some) ++ List.replicate (2 * rest.length) none := by
      unfold writeAt
      rw [decodePixel5551_length, List.take_left' hpre, ← List.append_assoc,
        List.drop_left' (by simp [hpre]), List.append_assoc]
    rw [hw, ih (off + 4) (pre ++ (decodePixel5551 b0 b1).map some)
      (by simp [hpre, decodePixel5551_length]) hev']
    have hflat : bgra5551Flat (b0 :: b1 :: rest) =
        decodePixel5551 b0 b1 ++ bgra5551Flat rest := rfl
    rw [hflat, List.map_append, List.append_assoc]
  | case2 rest h2 =>
    intro off pre hpre hev
    rcases rest with _ | ⟨a, _ | ⟨b, t⟩⟩
    · show fill5551 [] off (pre ++ List.replicate 0 none) = pre ++ List.map some (bgra5551Flat [])
      simp [fill5551, bgra5551Flat]
    · simp at hev
    · exact absurd rfl (h2 a b t)

lemma fill5551Count_eq (pixels : List Nat) : ∀ (off : Nat) (pre : List Nat),
    pre.length = off → pixels.length % 2 = 0 →
    fill5551Count pixels off (pre ++ List.replicate (2 * pixels.length) 0) =
      pre ++ List.replicate (2 * pixels.length) 1 := by
  induction pixels using bgra5551Flat.induct with
  | case1 b0 b1 rest ih =>
    intro off pre hpre hev
    have hev' : rest.length % 2 = 0 := by
      simp only [List.length_cons] at hev
      omega
    have hlen2 : 2 * (b0 :: b1 :: rest).length = 4 + 2 * rest.length := by
      simp only [List.length_cons]
      omega
    have hrep : ∀ c : Nat, List.replicate (2 * (b0 :: b1 :: rest).length) c =
        List.replicate 4 c ++ List.replicate (2 * rest.length) c := by
      intro c
      rw [← List.replicate_add, hlen2]
    rw [hrep, hrep]
    have hfill : fill5551Count (b0 :: b1 :: rest) off
        (pre ++ (List.replicate 4 0 ++ List.replicate (2 * rest.length) 0)) =
        fill5551Count rest (off + 4)
          (bumpRange (pre ++ (List.replicate 4 0 ++ List.replicate (2 * rest.length) 0)) off 4) :=
      rfl
    rw [hfill]
    have hb : bumpRange (pre ++ (List.replicate 4 0 ++ List.replicate (2 * rest.length) 0)) off 4 =
        (pre ++ List.replicate 4 1) ++ List.replicate (2 * rest.length) 0 := by
      unfold bumpRange
      rw [List.take_left' hpre, List.drop_left' hpre,
        List.take_left' (by simp), ← List.append_assoc,
        List.drop_left' (by simp [hpre]), List.map_replicate, List.append_assoc]
    rw [hb, ih (off + 4) (pre ++ List.replicate 4 1) (by simp [hpre]) hev',
      List.append_assoc]
  | case2 rest h2 =>
    intro off pre hpre hev
    rcases rest with _ | ⟨a, _ | ⟨b, t⟩⟩
    · show fill5551Count [] off (pre ++ List.replicate 0 0) = pre ++ List.replicate 0 1
      rfl
    · simp at hev
    · exact absurd rfl (h2 a b t)

lemma writeRange_length (l : List Nat) (idx : Nat) (vals : List Nat)
    (h : idx + vals.length ≤ l.length) : (writeRange l idx vals).length = l.length := by
  unfold writeRange
  simp only [List.length_append, List.length_take, List.length_drop]
  omega

lemma writeRange_take (l : List Nat) (idx : Nat) (vals : List Nat) (h : idx ≤ l.length) :
    (writeRange l idx vals).take idx = l.take idx := by
  unfold writeRange
  rw [List.append_assoc, List.take_left' (by rw [List.length_take]; omega)]

lemma writeRange_drop (l : List Nat) (idx : Nat) (vals : List Nat) (h : idx ≤ l.length) :
    (writeRange l idx vals).drop (idx + vals.length) = l.drop (idx + vals.length) := by
  unfold writeRange
  rw [List.drop_left' (by rw [List.length_append, List.length_take]; omega)]

lemma usizeOfInt_eq_toNat (x : Int) (h0 : 0 ≤ x) (h1 : x < 2 ^ 64) :
    usizeOfInt x = x.toNat := by
  unfold usizeOfInt
  rw [Int.emod_eq_of_lt h0 h1]

lemma toSigned_range16 (n : Nat) (h : n < 2 ^ 16) :
    -(2 ^ 15) ≤ toSigned 16 n ∧ toSigned 16 n < 2 ^ 15 := by
  unfold toSigned
  split <;> omega

lemma toSigned_range32 (n : Nat) (h : n < 2 ^ 32) :
    -(2 ^ 31) ≤ toSigned 32 n ∧ toSigned 32 n < 2 ^ 31 := by
  unfold toSigned
  split <;> omega

lemma listSlice_bytes (l : List Nat) (hb : ∀ x ∈ l, x < 256) (a b : Nat) :
    ∀ x ∈ listSlice l a b, x < 256 := by
  intro x hx
  unfold listSlice at hx
  exact hb x (List.mem_of_mem_drop (List.mem_of_mem_take hx))

lemma i16_from_be_bytes_range (l : List Nat) (hb : ∀ x ∈ l, x < 256) :
    -(2 ^ 15) ≤ i16_from_be_bytes l ∧ i16_from_be_bytes l < 2 ^ 15 := by
  have h0 := getD_lt_256 l hb 0
  have h1 := getD_lt_256 l hb 1
  exact toSigned_range16 _ (by omega)

lemma i32_from_be_bytes_range (l : List Nat) (hb : ∀ x ∈ l, x < 256) :
    -(2 ^ 31) ≤ i32_from_be_bytes l ∧ i32_from_be_bytes l < 2 ^ 31 := by
  have h0 := getD_lt_256 l hb 0
  have h1 := getD_lt_256 l hb 1
  have h2 := getD_lt_256 l hb 2
  have h3 := getD_lt_256 l hb 3
  exact toSigned_range32 _ (by omega)

/-- Forward evaluation of `decode` along the Bgra5551 arm. -/
lemma decode_bgra5551 (tex : List Nat)
    (h32 : 32 ≤ tex.length)
    (hsz : tex.length < 2 ^ 64)
    (hmagic : (parseHeader tex).magic = MAGIC)
    (hver : (parseHeader tex).version = 2)
    (hfmt : (parseHeader tex).format = 0x0A)
    (hstop : usizeOfInt (parseHeader tex).pixels_offset
        + usizeOfInt (parseHeader tex).pixels_size ≤ tex.length)
    (hwh : usizeOfInt (parseHeader tex).width * usizeOfInt (parseHeader tex).height * 4 < 2 ^ 64)
    (hassert : usizeOfInt (parseHeader tex).width * usizeOfInt (parseHeader tex).height * 2 =
        usizeOfInt (parseHeader tex).pixels_size) :
    decode tex = Except.ok (tex,
      bgra5551Flat (listSlice tex (usizeOfInt (parseHeader tex).pixels_offset)
        (usizeOfInt (parseHeader tex).pixels_offset
          + usizeOfInt (parseHeader tex).pixels_size))) := by
  have hnlt : ¬ tex.length < 32 := by omega
  have hfv : TexFormat.from_value (parseHeader tex).format = some TexFormat.bgra5551 := by
    rw [hfmt]
    rfl
  have hmodstop : (usizeOfInt (parseHeader tex).pixels_offset
      + usizeOfInt (parseHeader tex).pixels_size) % 2 ^ 64 =
      usizeOfInt (parseHeader tex).pixels_offset + usizeOfInt (parseHeader tex).pixels_size :=
    Nat.mod_eq_of_lt (by omega)
  have hplen : (listSlice tex (usizeOfInt (parseHeader tex).pixels_offset)
      (usizeOfInt (parseHeader tex).pixels_offset
        + usizeOfInt (parseHeader tex).pixels_size)).length
      = usizeOfInt (parseHeader tex).pixels_size := by
    rw [listSlice_length _ _ _ (by omega) (by omega)]
    omega
  have hmod2 : usizeOfInt (parseHeader tex).width * usizeOfInt (parseHeader tex).height * 2 % 2 ^ 64
      = usizeOfInt (parseHeader tex).width * usizeOfInt (parseHeader tex).height * 2 :=
    Nat.mod_eq_of_lt (by omega)
  have hmod4 : usizeOfInt (parseHeader tex).width * usizeOfInt (parseHeader tex).height * 4 % 2 ^ 64
      = usizeOfInt (parseHeader tex).width * usizeOfInt (parseHeader tex).height * 4 :=
    Nat.mod_eq_of_lt hwh
  have hmods : usizeOfInt (parseHeader tex).pixels_size % 2 ^ 64 =
      usizeOfInt (parseHeader tex).pixels_size :=
    Nat.mod_eq_of_lt (by omega)
  simp only [decode, hmagic, hver, hfv, hmodstop, hmod2, hmod4, hplen, hassert, hnlt, ne_eq,
    not_true_eq_false, not_false_eq_true, if_false, if_true, Nat.le_add_right, hstop, and_self,
    ite_true, ite_false, true_and, and_true, if_pos, hmods]
  have heven : (listSlice tex (usizeOfInt (parseHeader tex).pixels_offset)
      (usizeOfInt (parseHeader tex).pixels_offset
        + usizeOfInt (parseHeader tex).pixels_size)).length % 2 = 0 := by
    rw [hplen, ← hassert]
    omega
  have h2l : usizeOfInt (parseHeader tex).width * usizeOfInt (parseHeader tex).height * 4 =
      2 * (listSlice tex (usizeOfInt (parseHeader tex).pixels_offset)
        (usizeOfInt (parseHeader tex).pixels_offset
          + usizeOfInt (parseHeader tex).pixels_size)).length := by
    rw [hplen]
    omega
  rw [h2l]
  have hfe := fill5551_eq (listSlice tex (usizeOfInt (parseHeader tex).pixels_offset)
      (usizeOfInt (parseHeader tex).pixels_offset
        + usizeOfInt (parseHeader tex).pixels_size)) 0 [] rfl heven
  simp only [List.nil_append] at hfe
  rw [hfe, List.map_map]
  have hcomp : ((fun (o : Option Nat) => o.getD 0) ∘ some) = id := rfl
  rw [hcomp, List.map_id]

/-- Forward evaluation of `decode` along the Bgra8888 arm. -/
lemma decode_bgra8888 (tex : List Nat)
    (h32 : 32 ≤ tex.length)
    (hsz : tex.length < 2 ^ 64)
    (hmagic : (parseHeader tex).magic = MAGIC)
    (hver : (parseHeader tex).version = 2)
    (hfmt : (parseHeader tex).format = 0x08)
    (hstop : usizeOfInt (parseHeader tex).pixels_offset
        + usizeOfInt (parseHeader tex).pixels_size ≤ tex.length)
    (hwh : usizeOfInt (parseHeader tex).width * usizeOfInt (parseHeader tex).height * 4 < 2 ^ 64)
    (hassert : usizeOfInt (parseHeader tex).width * usizeOfInt (parseHeader tex).height * 4 =
        usizeOfInt (parseHeader tex).pixels_size) :
    decode tex = Except.ok
      (writeRange tex (usizeOfInt (parseHeader tex).pixels_offset)
        (bgra8888Step (listSlice tex (usizeOfInt (parseHeader tex).pixels_offset)
          (usizeOfInt (parseHeader tex).pixels_offset
            + usizeOfInt (parseHeader tex).pixels_size))),
       bgra8888Step (listSlice tex (usizeOfInt (parseHeader tex).pixels_offset)
         (usizeOfInt (parseHeader tex).pixels_offset
           + usizeOfInt (parseHeader tex).pixels_size))) := by
  have hnlt : ¬ tex.length < 32 := by omega
  have hfv : TexFormat.from_value (parseHeader tex).format = some TexFormat.bgra8888 := by
    rw [hfmt]
    rfl
  have hmodstop : (usizeOfInt (parseHeader tex).pixels_offset
      + usizeOfInt (parseHeader tex).pixels_size) % 2 ^ 64 =
      usizeOfInt (parseHeader tex).pixels_offset + usizeOfInt (parseHeader tex).pixels_size :=
    Nat.mod_eq_of_lt (by omega)
  have hplen : (listSlice tex (usizeOfInt (parseHeader tex).pixels_offset)
      (usizeOfInt (parseHeader tex).pixels_offset
        + usizeOfInt (parseHeader tex).pixels_size)).length
      = usizeOfInt (parseHeader tex).pixels_size := by
    rw [listSlice_length _ _ _ (by omega) (by omega)]
    omega
  have hmod4 : usizeOfInt (parseHeader tex).width * usizeOfInt (parseHeader tex).height * 4 % 2 ^ 64
      = usizeOfInt (parseHeader tex).width * usizeOfInt (parseHeader tex).height * 4 :=
    Nat.mod_eq_of_lt hwh
  have hmods : usizeOfInt (parseHeader tex).pixels_size % 2 ^ 64 =
      usizeOfInt (parseHeader tex).pixels_size :=
    Nat.mod_eq_of_lt (by omega)
  simp only [decode, hmagic, hver, hfv, hmodstop, hmod4, hplen, hassert, hnlt, ne_eq,
    not_true_eq_false, not_false_eq_true, if_false, if_true, Nat.le_add_right, hstop, and_self,
    ite_true, ite_false, true_and, and_true, if_pos, hmods]

lemma decode_truncated (tex : List Nat) (h : tex.length < 32) :
    decode tex = Except.error TexError.truncated := by
  unfold decode
  rw [if_pos h]

lemma decode_badMagic (tex : List Nat) (h32 : ¬ tex.length < 32)
    (hm : (parseHeader tex).magic ≠ MAGIC) :
    decode tex = Except.error TexError.badMagic := by
  simp only [decode, ne_eq, h32, hm, not_false_eq_true, if_true, if_false, ite_true, ite_false]

lemma decode_unsupportedVersion (tex : List Nat) (h32 : ¬ tex.length < 32)
    (hm : (parseHeader tex).magic = MAGIC) (hv : (parseHeader tex).version ≠ 2) :
    decode tex = Except.error (TexError.unsupportedVersion (parseHeader tex).version) := by
  simp only [decode, ne_eq, h32, hm, hv, not_true_eq_false, not_false_eq_true, if_true, if_false,
    ite_true, ite_false]

lemma decode_unsupportedFormat (tex : List Nat) (h32 : ¬ tex.length < 32)
    (hm : (parseHeader tex).magic = MAGIC) (hv : (parseHeader tex).version = 2)
    (hf : TexFormat.from_value (parseHeader tex).format = none) :
    decode tex = Except.error (TexError.unsupportedFormat (parseHeader tex).format) := by
  simp only [decode, ne_eq, h32, hm, hv, hf, not_true_eq_false, not_false_eq_true, if_true,
    if_false, ite_true, ite_false]

lemma decode_unimplemented (tex : List Nat) (h32 : ¬ tex.length < 32)
    (hsz : tex.length < 2 ^ 64)
    (hm : (parseHeader tex).magic = MAGIC) (hv : (parseHeader tex).version = 2)
    (hf : TexFormat.from_value (parseHeader tex).format = some TexFormat.pvrtc2Rgba)
    (hstop : usizeOfInt (parseHeader tex).pixels_offset
      + usizeOfInt (parseHeader tex).pixels_size ≤ tex.length) :
    decode tex = Except.error (TexError.unimplemented TexFormat.pvrtc2Rgba) := by
  have hmodstop : (usizeOfInt (parseHeader tex).pixels_offset
      + usizeOfInt (parseHeader tex).pixels_size) % 2 ^ 64 =
      usizeOfInt (parseHeader tex).pixels_offset + usizeOfInt (parseHeader tex).pixels_size :=
    Nat.mod_eq_of_lt (by omega)
  simp only [decode, ne_eq, h32, hm, hv, hf, hmodstop, hstop, Nat.le_add_right, and_self,
    not_true_eq_false, not_false_eq_true, if_true, if_false, ite_true, ite_false, true_and,
    and_true, if_pos]

/-- Inversion of a successful decode: the frame facts about the final file
buffer. -/
lemma decode_ok_inv (tex t' out : List Nat) (hdec : decode tex = Except.ok (t', out)) :
    t'.length = tex.length ∧
    t'.take (usizeOfInt (parseHeader tex).pixels_offset) =
      tex.take (usizeOfInt (parseHeader tex).pixels_offset) ∧
    t'.drop ((usizeOfInt (parseHeader tex).pixels_offset
      + usizeOfInt (parseHeader tex).pixels_size) % 2 ^ 64) =
      tex.drop ((usizeOfInt (parseHeader tex).pixels_offset
        + usizeOfInt (parseHeader tex).pixels_size) % 2 ^ 64) ∧
    ((parseHeader tex).format = 0x0A → t' = tex) := by
  simp only [decode] at hdec
  split at hdec
  · exact absurd hdec (by simp)
  · split at hdec
    · exact absurd hdec (by simp)
    · split at hdec
      · exact absurd hdec (by simp)
      · split at hdec
        · exact absurd hdec (by simp)
        · rename_i format heq
          split at hdec
          · rename_i hrange
            split at hdec
            · -- Bgra8888 arm
              split at hdec
              · rename_i hassert
                simp only [Except.ok.injEq, Prod.mk.injEq] at hdec
                obtain ⟨h1, h3⟩ := hdec
                subst h1
                subst h3
                have hplen := listSlice_length tex (usizeOfInt (parseHeader tex).pixels_offset)
                  ((usizeOfInt (parseHeader tex).pixels_offset
                    + usizeOfInt (parseHeader tex).pixels_size) % 2 ^ 64) hrange.1 hrange.2
                have hlen : (bgra8888Step (listSlice tex
                    (usizeOfInt (parseHeader tex).pixels_offset)
                    ((usizeOfInt (parseHeader tex).pixels_offset
                      + usizeOfInt (parseHeader tex).pixels_size) % 2 ^ 64))).length =
                    (usizeOfInt (parseHeader tex).pixels_offset
                      + usizeOfInt (parseHeader tex).pixels_size) % 2 ^ 64
                      - usizeOfInt (parseHeader tex).pixels_offset := by
                  rw [bgra8888Step_length]
                  exact hplen
                have hr1 := hrange.1
                have hr2 := hrange.2
                refine ⟨?_, ?_, ?_, ?_⟩
                · apply writeRange_length
                  omega
                · apply writeRange_take
                  omega
                · generalize hgen : bgra8888Step (listSlice tex
                      (usizeOfInt (parseHeader tex).pixels_offset)
                      ((usizeOfInt (parseHeader tex).pixels_offset
                        + usizeOfInt (parseHeader tex).pixels_size) % 2 ^ 64)) = w
                  rw [hgen] at hlen
                  have harith : usizeOfInt (parseHeader tex).pixels_offset + w.length =
                      (usizeOfInt (parseHeader tex).pixels_offset
                        + usizeOfInt (parseHeader tex).pixels_size) % 2 ^ 64 := by
                    omega
                  rw [← harith]
                  apply writeRange_drop
                  omega
                · intro hA
                  rw [hA] at heq
                  exact absurd heq (by decide)
              · exact absurd hdec (by simp)
            · -- Bgra5551 arm
              split at hdec
              · simp only [Except.ok.injEq, Prod.mk.injEq] at hdec
                obtain ⟨h1, h3⟩ := hdec
                subst h1
                exact ⟨rfl, rfl, rfl, fun _ => rfl⟩
              · exact absurd hdec (by simp)
            · exact absurd hdec (by simp)
          · exact absurd hdec (by simp)

lemma from_value_eq_none (b : Nat) (h8 : b ≠ 0x08) (hA : b ≠ 0x0A) (h84 : b ≠ 0x84) :
    TexFormat.from_value b = none := by
  unfold TexFormat.from_value
  split
  · exact absurd rfl h8
  · exact absurd rfl hA
  · exact absurd rfl h84
  · rfl

lemma i16_slice_getD (tex : List Nat) (a b : Nat) (hb : b = a + 2) :
    i16_from_be_bytes (listSlice tex a b) =
      toSigned 16 (tex.getD a 0 * 2 ^ 8 + tex.getD (a + 1) 0) := by
  subst hb
  unfold i16_from_be_bytes
  rw [listSlice_getD _ _ _ 0 0 (by omega), listSlice_getD _ _ _ 1 0 (by omega)]
  norm_num

lemma i32_slice_getD (tex : List Nat) (a b : Nat) (hb : b = a + 4) :
    i32_from_be_bytes (listSlice tex a b) =
      toSigned 32 (tex.getD a 0 * 2 ^ 24 + tex.getD (a + 1) 0 * 2 ^ 16
        + tex.getD (a + 2) 0 * 2 ^ 8 + tex.getD (a + 3) 0) := by
  subst hb
  unfold i32_from_be_bytes
  rw [listSlice_getD _ _ _ 0 0 (by omega), listSlice_getD _ _ _ 1 0 (by omega),
    listSlice_getD _ _ _ 2 0 (by omega), listSlice_getD _ _ _ 3 0 (by omega)]
  norm_num

/-- Claim C1: BGRA5551 decode correctness.  For a valid Bgra5551 file
(byte-valued buffer, magic, version 2, format 0x0A, in-range pixel region
whose length is the asserted `width*height*2`), decoding succeeds, leaves
the file buffer untouched, and for every pixel `p` the four output bytes
at offset `4*p` are `[R, G, B, A]` computed from the little-endian 16-bit
value `v` of pixel bytes `2*p, 2*p+1` as `R = ((v>>>10)&&&0x1F)*255/31`,
`G = ((v>>>5)&&&0x1F)*255/31`, `B = (v&&&0x1F)*255/31`,
`A = (v>>>15)*0xFF`; in particular the 1x1 file with pixel bytes
`[0xFF, 0xFF]` decodes to `[0xFF, 0xFF, 0xFF, 0xFF]`. -/
theorem bgra5551_decode_correct :
    (∀ tex : List Nat,
      (∀ x ∈ tex, x < 256) →
      32 ≤ tex.length → tex.length < 2 ^ 64 →
      (parseHeader tex).magic = MAGIC →
      (parseHeader tex).version = 2 →
      (parseHeader tex).format = 0x0A →
      usizeOfInt (parseHeader tex).pixels_offset + usizeOfInt (parseHeader tex).pixels_size
        ≤ tex.length →
      usizeOfInt (parseHeader tex).width * usizeOfInt (parseHeader tex).height * 4 < 2 ^ 64 →
      usizeOfInt (parseHeader tex).width * usizeOfInt (parseHeader tex).height * 2 =
        usizeOfInt (parseHeader tex).pixels_size →
      ∃ out : List Nat,
        decode tex = Except.ok (tex, out) ∧
        ∀ p : Nat, 4 * p + 4 ≤ out.length →
          listSlice out (4 * p) (4 * p + 4) =
            [((tex.getD (usizeOfInt (parseHeader tex).pixels_offset + 2 * p) 0
                + 2 ^ 8 * tex.getD (usizeOfInt (parseHeader tex).pixels_offset + 2 * p + 1) 0)
                >>> 10 &&& 0x1F) * 255 / 31,
             ((tex.getD (usizeOfInt (parseHeader tex).pixels_offset + 2 * p) 0
                + 2 ^ 8 * tex.getD (usizeOfInt (parseHeader tex).pixels_offset + 2 * p + 1) 0)
                >>> 5 &&& 0x1F) * 255 / 31,
             ((tex.getD (usizeOfInt (parseHeader tex).pixels_offset + 2 * p) 0
                + 2 ^ 8 * tex.getD (usizeOfInt (parseHeader tex).pixels_offset + 2 * p + 1) 0)
                &&& 0x1F) * 255 / 31,
             ((tex.getD (usizeOfInt (parseHeader tex).pixels_offset + 2 * p) 0
                + 2 ^ 8 * tex.getD (usizeOfInt (parseHeader tex).pixels_offset + 2 * p + 1) 0)
                >>> 15) * 0xFF]) ∧
    decode tex5551Example = Except.ok (tex5551Example, [0xFF, 0xFF, 0xFF, 0xFF]) := by
  refine ⟨?_, by rfl⟩
  intro tex hbytes h32 hsz hmagic hver hfmt hstop hwh hassert
  refine ⟨_, decode_bgra5551 tex h32 hsz hmagic hver hfmt hstop hwh hassert, ?_⟩
  intro p hp
  have hplen : (listSlice tex (usizeOfInt (parseHeader tex).pixels_offset)
      (usizeOfInt (parseHeader tex).pixels_offset
        + usizeOfInt (parseHeader tex).pixels_size)).length
      = usizeOfInt (parseHeader tex).pixels_size := by
    rw [listSlice_length _ _ _ (by omega) (by omega)]
    omega
  have hev : (listSlice tex (usizeOfInt (parseHeader tex).pixels_offset)
      (usizeOfInt (parseHeader tex).pixels_offset
        + usizeOfInt (parseHeader tex).pixels_size)).length % 2 = 0 := by
    rw [hplen, ← hassert, Nat.mul_mod_left]
  have hflatlen := bgra5551Flat_length _ hev
  rw [hflatlen] at hp
  have hp2 : 2 * p + 2 ≤ (listSlice tex (usizeOfInt (parseHeader tex).pixels_offset)
      (usizeOfInt (parseHeader tex).pixels_offset
        + usizeOfInt (parseHeader tex).pixels_size)).length := by
    omega
  rw [bgra5551Flat_segment _ p hp2 hev]
  have hb0 : (listSlice tex (usizeOfInt (parseHeader tex).pixels_offset)
      (usizeOfInt (parseHeader tex).pixels_offset
        + usizeOfInt (parseHeader tex).pixels_size)).getD (2 * p) 0 < 256 :=
    getD_lt_256 _ (listSlice_bytes tex hbytes _ _) _
  have hb1 : (listSlice tex (usizeOfInt (parseHeader tex).pixels_offset)
      (usizeOfInt (parseHeader tex).pixels_offset
        + usizeOfInt (parseHeader tex).pixels_size)).getD (2 * p + 1) 0 < 256 :=
    getD_lt_256 _ (listSlice_bytes tex hbytes _ _) _
  rw [decodePixel5551_eq _ _ hb0 hb1]
  rw [listSlice_getD tex _ _ (2 * p) 0 (by omega), listSlice_getD tex _ _ (2 * p + 1) 0 (by omega)]
  simp only [Nat.add_assoc]

/-- Claim C2: BGRA8888 decode correctness.  For a valid Bgra8888 file
(magic, version 2, format 0x08, in-range pixel region whose length is the
asserted `width*height*4`), decoding succeeds, the pixel region of the
file buffer is rewritten in place group-wise from `[b, g, r, a]` to
`[r, g, b, a]`, and the output buffer is exactly that rewritten region;
in particular the 1x1 file with pixel bytes `[0x10, 0x20, 0x30, 0x40]`
decodes to `[0x30, 0x20, 0x10, 0x40]`. -/
theorem bgra8888_decode_correct :
    (∀ tex : List Nat,
      32 ≤ tex.length → tex.length < 2 ^ 64 →
      (parseHeader tex).magic = MAGIC →
      (parseHeader tex).version = 2 →
      (parseHeader tex).format = 0x08 →
      usizeOfInt (parseHeader tex).pixels_offset + usizeOfInt (parseHeader tex).pixels_size
        ≤ tex.length →
      usizeOfInt (parseHeader tex).width * usizeOfInt (parseHeader tex).height * 4 < 2 ^ 64 →
      usizeOfInt (parseHeader tex).width * usizeOfInt (parseHeader tex).height * 4 =
        usizeOfInt (parseHeader tex).pixels_size →
      decode tex = Except.ok
        (writeRange tex (usizeOfInt (parseHeader tex).pixels_offset)
          (bgra8888Step (listSlice tex (usizeOfInt (parseHeader tex).pixels_offset)
            (usizeOfInt (parseHeader tex).pixels_offset
              + usizeOfInt (parseHeader tex).pixels_size))),
         bgra8888Step (listSlice tex (usizeOfInt (parseHeader tex).pixels_offset)
           (usizeOfInt (parseHeader tex).pixels_offset
             + usizeOfInt (parseHeader tex).pixels_size))) ∧
      (∀ p : Nat, 4 * p + 4 ≤ (listSlice tex (usizeOfInt (parseHeader tex).pixels_offset)
          (usizeOfInt (parseHeader tex).pixels_offset
            + usizeOfInt (parseHeader tex).pixels_size)).length →
        listSlice (bgra8888Step (listSlice tex (usizeOfInt (parseHeader tex).pixels_offset)
            (usizeOfInt (parseHeader tex).pixels_offset
              + usizeOfInt (parseHeader tex).pixels_size))) (4 * p) (4 * p + 4) =
          [tex.getD (usizeOfInt (parseHeader tex).pixels_offset + (4 * p + 2)) 0,
           tex.getD (usizeOfInt (parseHeader tex).pixels_offset + (4 * p + 1)) 0,
           tex.getD (usizeOfInt (parseHeader tex).pixels_offset + 4 * p) 0,
           tex.getD (usizeOfInt (parseHeader tex).pixels_offset + (4 * p + 3)) 0])) ∧
    decode tex8888Example = Except.ok
      (listSlice tex8888Example 0 32 ++ [0x30, 0x20, 0x10, 0x40],
       [0x30, 0x20, 0x10, 0x40]) := by
  refine ⟨?_, by rfl⟩
  intro tex h32 hsz hmagic hver hfmt hstop hwh hassert
  refine ⟨decode_bgra8888 tex h32 hsz hmagic hver hfmt hstop hwh hassert, ?_⟩
  intro p hp
  have hplen : (listSlice tex (usizeOfInt (parseHeader tex).pixels_offset)
      (usizeOfInt (parseHeader tex).pixels_offset
        + usizeOfInt (parseHeader tex).pixels_size)).length
      = usizeOfInt (parseHeader tex).pixels_size := by
    rw [listSlice_length _ _ _ (by omega) (by omega)]
    omega
  rw [hplen] at hp
  rw [bgra8888Step_segment _ p (by rw [hplen]; omega)]
  rw [listSlice_getD tex _ _ (4 * p + 2) 0 (by omega),
    listSlice_getD tex _ _ (4 * p + 1) 0 (by omega),
    listSlice_getD tex _ _ (4 * p) 0 (by omega),
    listSlice_getD tex _ _ (4 * p + 3) 0 (by omega)]

/-- Claim C1 witness: the general statement applied to the concrete 1x1
Bgra5551 file. -/
theorem bgra5551_decode_correct_witness :
    (∃ out : List Nat, decode tex5551Example = Except.ok (tex5551Example, out)) ∧
    decode tex5551Example = Except.ok (tex5551Example, [0xFF, 0xFF, 0xFF, 0xFF]) := by
  obtain ⟨out, h1, _⟩ := bgra5551_decode_correct.1 tex5551Example (by decide) (by decide)
    (by decide) (by rfl) (by rfl) (by rfl) (by decide) (by decide) (by decide)
  exact ⟨⟨out, h1⟩, bgra5551_decode_correct.2⟩

/-- Claim C2 witness: the general statement applied to the concrete 1x1
Bgra8888 file. -/
theorem bgra8888_decode_correct_witness :
    decode tex8888Example = Except.ok
      (writeRange tex8888Example (usizeOfInt (parseHeader tex8888Example).pixels_offset)
        (bgra8888Step (listSlice tex8888Example
          (usizeOfInt (parseHeader tex8888Example).pixels_offset)
          (usizeOfInt (parseHeader tex8888Example).pixels_offset
            + usizeOfInt (parseHeader tex8888Example).pixels_size))),
       bgra8888Step (listSlice tex8888Example
         (usizeOfInt (parseHeader tex8888Example).pixels_offset)
         (usizeOfInt (parseHeader tex8888Example).pixels_offset
           + usizeOfInt (parseHeader tex8888Example).pixels_size))) ∧
    decode tex8888Example = Except.ok
      (listSlice tex8888Example 0 32 ++ [0x30, 0x20, 0x10, 0x40],
       [0x30, 0x20, 0x10, 0x40]) :=
  ⟨(bgra8888_decode_correct.1 tex8888Example (by decide) (by decide) (by rfl) (by rfl) (by rfl)
      (by decide) (by decide) (by decide)).1,
   bgra8888_decode_correct.2⟩

/-- Claim C3: round-trip dimension law.  For every valid header (magic,
version 2, implemented format with the asserted pixel-region size,
non-negative dimensions, in-range region, byte-valued buffer), decoding
succeeds and the RGBA buffer has length exactly `width*height*4`, on both
the Bgra8888 and the Bgra5551 path. -/
theorem decoded_length_law (tex : List Nat)
    (hbytes : ∀ x ∈ tex, x < 256)
    (h32 : 32 ≤ tex.length) (hsz : tex.length < 2 ^ 64)
    (hmagic : (parseHeader tex).magic = MAGIC)
    (hver : (parseHeader tex).version = 2)
    (hwnn : 0 ≤ (parseHeader tex).width) (hhnn : 0 ≤ (parseHeader tex).height)
    (hstop : usizeOfInt (parseHeader tex).pixels_offset
      + usizeOfInt (parseHeader tex).pixels_size ≤ tex.length)
    (hfmt : ((parseHeader tex).format = 0x08 ∧
        usizeOfInt (parseHeader tex).width * usizeOfInt (parseHeader tex).height * 4 =
          usizeOfInt (parseHeader tex).pixels_size) ∨
      ((parseHeader tex).format = 0x0A ∧
        usizeOfInt (parseHeader tex).width * usizeOfInt (parseHeader tex).height * 2 =
          usizeOfInt (parseHeader tex).pixels_size)) :
    ∃ t' out : List Nat, decode tex = Except.ok (t', out) ∧
      out.length =
        usizeOfInt (parseHeader tex).width * usizeOfInt (parseHeader tex).height * 4 := by
  have hwr := i16_from_be_bytes_range (listSlice tex 8 10) (listSlice_bytes tex hbytes 8 10)
  have hhr := i16_from_be_bytes_range (listSlice tex 10 12) (listSlice_bytes tex hbytes 10 12)
  have hwu : usizeOfInt (parseHeader tex).width ≤ 2 ^ 15 := by
    have he : (parseHeader tex).width = i16_from_be_bytes (listSlice tex 8 10) := rfl
    rw [he, usizeOfInt_eq_toNat _ (by rw [← he]; exact hwnn) (by omega)]
    omega
  have hhu : usizeOfInt (parseHeader tex).height ≤ 2 ^ 15 := by
    have he : (parseHeader tex).height = i16_from_be_bytes (listSlice tex 10 12) := rfl
    rw [he, usizeOfInt_eq_toNat _ (by rw [← he]; exact hhnn) (by omega)]
    omega
  have hmul : usizeOfInt (parseHeader tex).width * usizeOfInt (parseHeader tex).height
      ≤ 2 ^ 15 * 2 ^ 15 := Nat.mul_le_mul hwu hhu
  have hwh : usizeOfInt (parseHeader tex).width * usizeOfInt (parseHeader tex).height * 4
      < 2 ^ 64 := by
    omega
  have hplen : (listSlice tex (usizeOfInt (parseHeader tex).pixels_offset)
      (usizeOfInt (parseHeader tex).pixels_offset
        + usizeOfInt (parseHeader tex).pixels_size)).length
      = usizeOfInt (parseHeader tex).pixels_size := by
    rw [listSlice_length _ _ _ (by omega) (by omega)]
    omega
  rcases hfmt with ⟨hf8, hassert⟩ | ⟨hfA, hassert⟩
  · refine ⟨_, _, decode_bgra8888 tex h32 hsz hmagic hver hf8 hstop hwh hassert, ?_⟩
    rw [bgra8888Step_length, hplen]
    omega
  · refine ⟨_, _, decode_bgra5551 tex h32 hsz hmagic hver hfA hstop hwh hassert, ?_⟩
    have hev : (listSlice tex (usizeOfInt (parseHeader tex).pixels_offset)
        (usizeOfInt (parseHeader tex).pixels_offset
          + usizeOfInt (parseHeader tex).pixels_size)).length % 2 = 0 := by
      rw [hplen, ← hassert, Nat.mul_mod_left]
    rw [bgra5551Flat_length _ hev, hplen]
    omega

/-- Claim C3 witness: the dimension law at the two concrete 1x1 files. -/
theorem decoded_length_law_witness :
    (∃ t' out : List Nat, decode tex8888Example = Except.ok (t', out) ∧ out.length = 4) ∧
    (∃ t' out : List Nat, decode tex5551Example = Except.ok (t', out) ∧ out.length = 4) := by
  constructor
  · obtain ⟨t', out, h1, h2⟩ := decoded_length_law tex8888Example (by decide) (by decide)
      (by decide) (by rfl) (by rfl) (by decide) (by decide) (by decide)
      (Or.inl ⟨by rfl, by decide⟩)
    exact ⟨t', out, h1, by simpa using h2⟩
  · obtain ⟨t', out, h1, h2⟩ := decoded_length_law tex5551Example (by decide) (by decide)
      (by decide) (by rfl) (by rfl) (by decide) (by decide) (by decide)
      (Or.inr ⟨by rfl, by decide⟩)
    exact ⟨t', out, h1, by simpa using h2⟩

/-- Claim C4: header validation sequence.  Any buffer shorter than 32
bytes fails with Truncated regardless of its contents; a 32-byte-or-longer
buffer whose first four bytes are not `TEX\n` fails with BadMagic; one
with good magic but version byte other than 2 fails with
UnsupportedVersion carrying that byte.  The three checks happen in exactly
this order. -/
theorem header_validation_order :
    (∀ tex : List Nat, tex.length < 32 → decode tex = Except.error TexError.truncated) ∧
    (∀ tex : List Nat, 32 ≤ tex.length → listSlice tex 0 4 ≠ MAGIC →
      decode tex = Except.error TexError.badMagic) ∧
    (∀ tex : List Nat, 32 ≤ tex.length → listSlice tex 0 4 = MAGIC → tex.getD 4 0 ≠ 2 →
      decode tex = Except.error (TexError.unsupportedVersion (tex.getD 4 0))) :=
  ⟨fun tex h => decode_truncated tex h,
   fun tex h32 hm => decode_badMagic tex (by omega) hm,
   fun tex h32 hm hv => decode_unsupportedVersion tex (by omega) hm hv⟩

/-- Claim C4 witness: the three failure modes at concrete inputs. -/
theorem header_validation_order_witness :
    decode (List.replicate 31 0) = Except.error TexError.truncated ∧
    decode (List.replicate 32 0) = Except.error TexError.badMagic ∧
    decode texBadVersion = Except.error (TexError.unsupportedVersion 7) :=
  ⟨header_validation_order.1 _ (by decide),
   header_validation_order.2.1 _ (by decide) (by decide),
   header_validation_order.2.2 texBadVersion (by decide) (by rfl) (by decide)⟩

/-- Claim C5 (amended): after magic and version pass, a format byte
outside `{0x08, 0x0A, 0x84}` fails with UnsupportedFormat carrying that
byte, before the pixel region is touched (no in-range hypothesis is
needed); format 0x84 fails with Unimplemented, producing no output and
reading no pixel bytes, provided the declared pixel region lies within
the file -- the bounds-checked region slice is taken before the format
dispatch, so an out-of-range region panics first. -/
theorem format_dispatch_failures :
    (∀ tex : List Nat, 32 ≤ tex.length →
      (parseHeader tex).magic = MAGIC → (parseHeader tex).version = 2 →
      (parseHeader tex).format ≠ 0x08 → (parseHeader tex).format ≠ 0x0A →
      (parseHeader tex).format ≠ 0x84 →
      decode tex = Except.error (TexError.unsupportedFormat (parseHeader tex).format)) ∧
    (∀ tex : List Nat, 32 ≤ tex.length → tex.length < 2 ^ 64 →
      (parseHeader tex).magic = MAGIC → (parseHeader tex).version = 2 →
      (parseHeader tex).format = 0x84 →
      usizeOfInt (parseHeader tex).pixels_offset + usizeOfInt (parseHeader tex).pixels_size
        ≤ tex.length →
      decode tex = Except.error (TexError.unimplemented TexFormat.pvrtc2Rgba)) :=
  ⟨fun tex h32 hm hv h8 hA h84 =>
    decode_unsupportedFormat tex (by omega) hm hv (from_value_eq_none _ h8 hA h84),
   fun tex h32 hsz hm hv hf hstop =>
    decode_unimplemented tex (by omega) hsz hm hv (by rw [hf]; rfl) hstop⟩

/-- Claim C5 counterexample: a buffer passing the magic and version checks
with format byte 0x84 whose declared pixel region (offset 0, size 64)
overruns the 32-byte file makes the program panic on the slice bounds
check; it does not fail with Unimplemented as the claim states. -/
theorem pvrtc2_overrun_panics :
    decode texPvrtcOverrun = Except.error TexError.panicSlice ∧
    TexError.panicSlice ≠ TexError.unimplemented TexFormat.pvrtc2Rgba :=
  ⟨by rfl, by decide⟩

/-- Claim C5 witness: the two amended failure modes at concrete inputs. -/
theorem format_dispatch_failures_witness :
    decode texBadFormat = Except.error (TexError.unsupportedFormat 3) ∧
    decode texPvrtc = Except.error (TexError.unimplemented TexFormat.pvrtc2Rgba) :=
  ⟨format_dispatch_failures.1 texBadFormat (by decide) (by rfl) (by decide) (by decide)
      (by decide) (by decide),
   format_dispatch_failures.2 texPvrtc (by decide) (by decide) (by rfl) (by decide) (by decide)
      (by decide)⟩

/-- Claim C6: header field layout.  For every buffer of length at least
32, the parsed header reads magic from bytes 0..4, version from byte 4,
format from byte 5, mipmaps from byte 6, opaque_bitmap from byte 7, width
and height as big-endian signed 16-bit integers from bytes 8..10 and
10..12, and scale, pixels_offset, pixels_size, bitmap_offset, bitmap_size
as big-endian signed 32-bit integers from bytes 12..16, 16..20, 20..24,
24..28, 28..32. -/
theorem header_field_layout (tex : List Nat) (h32 : 32 ≤ tex.length) :
    (parseHeader tex).magic = [tex.getD 0 0, tex.getD 1 0, tex.getD 2 0, tex.getD 3 0] ∧
    (parseHeader tex).version = tex.getD 4 0 ∧
    (parseHeader tex).format = tex.getD 5 0 ∧
    (parseHeader tex).mipmaps = tex.getD 6 0 ∧
    (parseHeader tex).opaqBitmap = tex.getD 7 0 ∧
    (parseHeader tex).width = toSigned 16 (tex.getD 8 0 * 2 ^ 8 + tex.getD 9 0) ∧
    (parseHeader tex).height = toSigned 16 (tex.getD 10 0 * 2 ^ 8 + tex.getD 11 0) ∧
    (parseHeader tex).scale = toSigned 32 (tex.getD 12 0 * 2 ^ 24 + tex.getD 13 0 * 2 ^ 16
      + tex.getD 14 0 * 2 ^ 8 + tex.getD 15 0) ∧
    (parseHeader tex).pixels_offset = toSigned 32 (tex.getD 16 0 * 2 ^ 24
      + tex.getD 17 0 * 2 ^ 16 + tex.getD 18 0 * 2 ^ 8 + tex.getD 19 0) ∧
    (parseHeader tex).pixels_size = toSigned 32 (tex.getD 20 0 * 2 ^ 24
      + tex.getD 21 0 * 2 ^ 16 + tex.getD 22 0 * 2 ^ 8 + tex.getD 23 0) ∧
    (parseHeader tex).bitmap_offset = toSigned 32 (tex.getD 24 0 * 2 ^ 24
      + tex.getD 25 0 * 2 ^ 16 + tex.getD 26 0 * 2 ^ 8 + tex.getD 27 0) ∧
    (parseHeader tex).bitmap_size = toSigned 32 (tex.getD 28 0 * 2 ^ 24
      + tex.getD 29 0 * 2 ^ 16 + tex.getD 30 0 * 2 ^ 8 + tex.getD 31 0) := by
  refine ⟨listSlice_zero_four tex (by omega), rfl, rfl, rfl, rfl, ?_, ?_, ?_, ?_, ?_, ?_, ?_⟩
  · rw [show (parseHeader tex).width = i16_from_be_bytes (listSlice tex 8 10) from rfl,
      i16_slice_getD tex 8 10 (by norm_num)]
  · rw [show (parseHeader tex).height = i16_from_be_bytes (listSlice tex 10 12) from rfl,
      i16_slice_getD tex 10 12 (by norm_num)]
  · rw [show (parseHeader tex).scale = i32_from_be_bytes (listSlice tex 12 16) from rfl,
      i32_slice_getD tex 12 16 (by norm_num)]
  · rw [show (parseHeader tex).pixels_offset = i32_from_be_bytes (listSlice tex 16 20) from rfl,
      i32_slice_getD tex 16 20 (by norm_num)]
  · rw [show (parseHeader tex).pixels_size = i32_from_be_bytes (listSlice tex 20 24) from rfl,
      i32_slice_getD tex 20 24 (by norm_num)]
  · rw [show (parseHeader tex).bitmap_offset = i32_from_be_bytes (listSlice tex 24 28) from rfl,
      i32_slice_getD tex 24 28 (by norm_num)]
  · rw [show (parseHeader tex).bitmap_size = i32_from_be_bytes (listSlice tex 28 32) from rfl,
      i32_slice_getD tex 28 32 (by norm_num)]

/-- Claim C6 witness: the field layout at the concrete 1x1 Bgra5551
file. -/
theorem header_field_layout_witness :
    (parseHeader tex5551Example).width = 1 ∧
    (parseHeader tex5551Example).pixels_offset = 32 ∧
    (parseHeader tex5551Example).pixels_size = 2 := by
  have h := header_field_layout tex5551Example (by decide)
  refine ⟨?_, ?_, ?_⟩
  · rw [h.2.2.2.2.2.1]
    decide
  · rw [h.2.2.2.2.2.2.2.2.1]
    decide
  · rw [h.2.2.2.2.2.2.2.2.2.1]
    decide

/-- Claim C7: 5-to-8-bit expansion arithmetic.  For 5-bit inputs the
expansion `c * 255 / 31` stays within `[0, 255]`, is monotonically
non-decreasing, and maps 0 to 0 and 31 to 255 exactly. -/
theorem expand5_props :
    (∀ c : Nat, c ≤ 31 → expand5 c ≤ 255) ∧
    (∀ c1 c2 : Nat, c1 ≤ 31 → c2 ≤ 31 → c1 ≤ c2 → expand5 c1 ≤ expand5 c2) ∧
    expand5 0 = 0 ∧ expand5 31 = 255 :=
  ⟨fun c hc => expand5_le c hc,
   fun _ _ _ _ hle => Nat.div_le_div_right (Nat.mul_le_mul_right _ hle),
   rfl, rfl⟩

/-- Claim C7 witness: bound and monotonicity at concrete inputs. -/
theorem expand5_props_witness : expand5 3 ≤ 255 ∧ expand5 3 ≤ expand5 7 :=
  ⟨expand5_props.1 3 (by decide), expand5_props.2.1 3 7 (by decide) (by decide) (by decide)⟩

/-- Claim C8: BGRA8888 involution.  Applying the per-group reorder
`[b, g, r, a] -> [r, g, b, a]` twice to a byte buffer whose length is a
multiple of 4 restores the original byte sequence. -/
theorem bgra8888_involution (l : List Nat) (_h : l.length % 4 = 0) :
    bgra8888Step (bgra8888Step l) = l :=
  bgra8888Step_step l

/-- Claim C8 witness: the involution at a concrete buffer. -/
theorem bgra8888_involution_witness :
    ([0x10, 0x20, 0x30, 0x40] : List Nat).length % 4 = 0 ∧
    bgra8888Step (bgra8888Step [0x10, 0x20, 0x30, 0x40]) = [0x10, 0x20, 0x30, 0x40] :=
  ⟨by decide, bgra8888_involution [0x10, 0x20, 0x30, 0x40] (by decide)⟩

/-- Claim C9: BGRA5551 buffer initialization.  Under the asserted
precondition that the pixel region has length `w*h*2`, the Bgra5551 loop
leaves no cell of the fresh `w*h*4` output buffer uninitialized, and its
write-count instrumentation shows every cell is written exactly once. -/
theorem bgra5551_full_init (pixels : List Nat) (w h : Nat)
    (hlen : pixels.length = w * h * 2) :
    (∀ o ∈ fill5551 pixels 0 (List.replicate (w * h * 4) none), o.isSome) ∧
    fill5551Count pixels 0 (List.replicate (w * h * 4) 0) = List.replicate (w * h * 4) 1 := by
  have hev : pixels.length % 2 = 0 := by
    rw [hlen, Nat.mul_mod_left]
  have h4 : w * h * 4 = 2 * pixels.length := by
    rw [hlen]
    ring
  constructor
  · rw [h4]
    have hfe := fill5551_eq pixels 0 [] rfl hev
    simp only [List.nil_append] at hfe
    rw [hfe]
    intro o ho
    simp only [List.mem_map] at ho
    obtain ⟨x, _, rfl⟩ := ho
    rfl
  · rw [h4]
    have hce := fill5551Count_eq pixels 0 [] rfl hev
    simpa using hce

/-- Claim C9 witness: full initialization for the 1x1 pixel region
`[0xFF, 0xFF]`. -/
theorem bgra5551_full_init_witness :
    (∀ o ∈ fill5551 [0xFF, 0xFF] 0 (List.replicate (1 * 1 * 4) none), o.isSome) ∧
    fill5551Count [0xFF, 0xFF] 0 (List.replicate (1 * 1 * 4) 0) =
      List.replicate (1 * 1 * 4) 1 :=
  bgra5551_full_init [0xFF, 0xFF] 1 1 (by decide)

/-- Claim C10: frame property.  Whenever decoding succeeds, the final
file buffer keeps its length, every byte before `pixels_offset` and from
`pixels_offset + pixels_size` on is unchanged (so the Bgra8888 arm
mutates only the pixel region), and on the Bgra5551 path (format byte
0x0A) the whole file buffer is returned unchanged. -/
theorem decode_frame_property (tex t' out : List Nat)
    (hdec : decode tex = Except.ok (t', out)) :
    t'.length = tex.length ∧
    t'.take (usizeOfInt (parseHeader tex).pixels_offset) =
      tex.take (usizeOfInt (parseHeader tex).pixels_offset) ∧
    t'.drop ((usizeOfInt (parseHeader tex).pixels_offset
      + usizeOfInt (parseHeader tex).pixels_size) % 2 ^ 64) =
      tex.drop ((usizeOfInt (parseHeader tex).pixels_offset
        + usizeOfInt (parseHeader tex).pixels_size) % 2 ^ 64) ∧
    ((parseHeader tex).format = 0x0A → t' = tex) :=
  decode_ok_inv tex t' out hdec

/-- Claim C10 witness: the frame facts for the concrete 1x1 Bgra8888
file. -/
theorem decode_frame_property_witness :
    (listSlice tex8888Example 0 32 ++ [0x30, 0x20, 0x10, 0x40]).take 32 =
      tex8888Example.take 32 ∧
    (listSlice tex8888Example 0 32 ++ [0x30, 0x20, 0x10, 0x40]).length =
      tex8888Example.length := by
  have h := decode_frame_property tex8888Example
    (listSlice tex8888Example 0 32 ++ [0x30, 0x20, 0x10, 0x40]) [0x30, 0x20, 0x10, 0x40]
    (by rfl)
  exact ⟨h.2.1, h.1⟩

end Siltex
